import Mathlib

/-!
Verification of the Reap batch image-organizer (src/main.py).

The script reads a catalog of location names, loads the set of already
processed locations from a JSON state file, plans the next batch of
unprocessed locations, materializes one destination folder per location
with images cycled from a pool of source folders, and persists the updated
processed list.  This file is a shallow embedding of that program:

* pure helpers (`sanitize_folder_name`, the batch-planning list operations,
  the cyclic source assignment, the image selection) are translated
  directly into Lean functions;
* the per-location loop of `main` becomes explicit state passing over a
  `LoopState` record that tracks the processed list, the set of existing
  destination folders, the folders created and the copy operations issued;
* file-system facts that `main` merely observes (the directory listings,
  whether a destination folder already exists, whether `os.makedirs`
  succeeds) are inputs in a `World` record;
* the `sys.exit(1)` calls of the loaders and the normal `return`s of
  `main` are distinguished by an `Except`/`ScriptExit` layer;
* the serialized form written by `save_state` (CPython `json.dump` with
  `indent=4`) is modelled character by character in order to reason about
  truncated (partially written) state files.
-/

namespace Reap

/-- The characters `sanitize_folder_name` in src/main.py replaces
(the Python string literal is a raw string of the nine characters). -/
def invalid_chars : List Char := ['<', '>', ':', '"', '/', '\\', '|', '?', '*']

/-- Model of `sanitize_folder_name`: the Python code replaces each invalid
character class by an underscore, one `str.replace` call per character;
since every pattern is a single character and the replacement underscore is
itself never an invalid character, the sequence of replaces is the same as
one simultaneous character map, which is how it is written here. -/
def sanitize_folder_name (folder_name : String) : String :=
  String.mk (folder_name.data.map (fun c => if c ∈ invalid_chars then '_' else c))

/-- Model of line 108 of src/main.py:
`unprocessed_locations = [loc for loc in locations if loc not in processed_locations]`. -/
def unprocessedOf (locations processed_locations : List String) : List String :=
  locations.filter (fun loc => decide (loc ∉ processed_locations))

/-- Model of line 114 of src/main.py:
`current_batch = unprocessed_locations[:batch_size]`. -/
def currentBatchOf (unprocessed_locations : List String) (batch_size : Nat) : List String :=
  unprocessed_locations.take batch_size

/-- Model of line 151 of src/main.py:
`original_folder = original_folders[i % total_original_folders]`.
The default value is never reached when the folder list is non-empty,
which `main` checks before the loop. -/
def assignedSource (original_folders : List String) (i : Nat) : String :=
  original_folders.getD (i % original_folders.length) ""

/-- Model of lines 157-161 of src/main.py: take all images when fewer than
`images_per_folder` are available, else the first `images_per_folder`. -/
def select_images (images : List String) (images_per_folder : Nat) : List String :=
  if images.length < images_per_folder then images else images.take images_per_folder

/-- The two numeric configuration values `main` consumes. -/
structure Config where
  batch_size : Nat
  images_per_folder : Nat
  deriving DecidableEq, Repr

/-- The inputs `main` reads from its collaborators: the catalog
(`locations`), the loaded state (`state0`), the source-pool directory
listing (`original_folders`), each source folder's image listing
(`images`), the names already present in the target directory
(`existing`), and whether `os.makedirs` succeeds for a given new
destination folder name (`createOk`). -/
structure World where
  locations : List String
  state0 : List String
  original_folders : List String
  images : String → List String
  existing : List String
  createOk : String → Bool

/-- How a call of `main` returns: all three are plain `return` paths. -/
inductive Outcome where
  | allProcessed
  | noSourceFolders
  | completed
  deriving DecidableEq, Repr

/-- The state threaded through the per-location loop of `main`:
the in-memory processed list, the folder names currently existing in the
target directory, the folders this run created, and each copy operation
issued as (source folder, image file, destination folder name). -/
structure LoopState where
  processed : List String
  existing : List String
  created : List String
  copies : List (String × String × String)
  deriving DecidableEq, Repr

/-- Observable result of one `main` call: how it returned, the folders it
created, the copies it issued, the final in-memory processed list, the
state file content it wrote (`none` when it returned before `save_state`),
and whether it reached the `os.makedirs(target_dir)` call. -/
structure RunResult where
  outcome : Outcome
  created : List String
  copies : List (String × String × String)
  finalProcessed : List String
  savedState : Option (List String)
  targetDirCreated : Bool
  deriving DecidableEq, Repr

/-- One iteration of the loop at lines 130-176 of src/main.py, for the
location at batch index `i`.  If the sanitized destination name already
exists, the location is marked processed and nothing else happens; if
folder creation fails, the iteration is a no-op (`continue` without
marking); otherwise the folder is created, a source folder is assigned
cyclically, images are selected and copied, and the location is marked
processed. -/
def processLocation (cfg : Config) (w : World) (st : LoopState) (i : Nat)
    (location : String) : LoopState :=
  let name := sanitize_folder_name location
  if name ∈ st.existing then
    { st with processed := st.processed ++ [location] }
  else if w.createOk name then
    let original_folder := assignedSource w.original_folders i
    let selected_images := select_images (w.images original_folder) cfg.images_per_folder
    { processed := st.processed ++ [location]
      existing := st.existing ++ [name]
      created := st.created ++ [name]
      copies := st.copies ++ selected_images.map (fun img => (original_folder, img, name)) }
  else
    st

/-- The loop of `main` over the enumerated current batch. -/
def runLoop (cfg : Config) (w : World) : List (Nat × String) → LoopState → LoopState
  | [], st => st
  | (i, location) :: rest, st => runLoop cfg w rest (processLocation cfg w st i location)

/-- Model of `enumerate(current_batch)` at line 130 of src/main.py: the
batch index restarts at 0 on every run. -/
def batchEntries (current_batch : List String) : List (Nat × String) :=
  current_batch.enum

/-- Model of `main` (lines 94-180 of src/main.py), given already loaded
catalog and state.  Mirrors the control flow: empty unprocessed list means
an early clean return before any file-system access; an empty source-folder
listing means an early clean return before the target directory is touched;
otherwise the batch loop runs and the final processed list is saved. -/
def main (cfg : Config) (w : World) : RunResult :=
  let processed0 := w.state0
  let unprocessed_locations := unprocessedOf w.locations processed0
  if unprocessed_locations = [] then
    ⟨Outcome.allProcessed, [], [], processed0, none, false⟩
  else
    let current_batch := currentBatchOf unprocessed_locations cfg.batch_size
    if w.original_folders = [] then
      ⟨Outcome.noSourceFolders, [], [], processed0, none, false⟩
    else
      let final := runLoop cfg w (batchEntries current_batch) ⟨processed0, w.existing, [], []⟩
      ⟨Outcome.completed, final.created, final.copies, final.processed,
        some final.processed, true⟩

/-- A parsed JSON document, as Python's `json.load` would produce it
(objects become dicts, arrays lists, and so on). -/
inductive PyJson where
  | str (s : String)
  | num (n : Int)
  | bool (b : Bool)
  | null
  | arr (xs : List PyJson)
  | obj (fields : List (String × PyJson))
  deriving Repr

/-- Lookup in a Python dict built by `json.load` from an object literal:
with duplicate keys the later binding wins, as in CPython. -/
def pyLookup (fields : List (String × PyJson)) (key : String) : Option PyJson :=
  match fields with
  | [] => none
  | (k, v) :: rest =>
    match pyLookup rest key with
    | some w => some w
    | none => if k = key then some v else none

/-- Model of `load_locations` (lines 31-41 of src/main.py) at the level the
claims need: `none` stands for a missing or unreadable file, `some none`
for content that raises inside the `try` block (malformed JSON, or a
document without a usable `locations` list), both of which are caught and
turned into `sys.exit(1)`; `some (some locs)` is a well-formed catalog. -/
def load_locations (file : Option (Option (List String))) : Except Nat (List String) :=
  match file with
  | none => Except.error 1
  | some none => Except.error 1
  | some (some locs) => Except.ok locs

/-- Model of `load_state` (lines 43-55 of src/main.py).  `stateExists`
models the `os.path.exists` guard (a missing file returns the empty list
without touching the file); `parsed = none` models a file whose content
makes `json.load` raise, caught and turned into `sys.exit(1)`; a parsed
non-object makes `state.get` raise `AttributeError` inside the same `try`
block, again `sys.exit(1)`; a parsed object returns its
`processed_locations` value, defaulting to the empty Python list. -/
def load_state (stateExists : Bool) (parsed : Option PyJson) : Except Nat PyJson :=
  if stateExists = false then Except.ok (PyJson.arr [])
  else
    match parsed with
    | none => Except.error 1
    | some (PyJson.obj fields) =>
      Except.ok ((pyLookup fields "processed_locations").getD (PyJson.arr []))
    | some _ => Except.error 1

/-- Projection of a loaded state value onto the list of location strings
`main` iterates over.  State files written by `save_state` always hold a
JSON array of strings, so this models the round-trip case exactly. -/
def pyStringItems : List PyJson → List String
  | [] => []
  | PyJson.str s :: rest => s :: pyStringItems rest
  | _ :: rest => pyStringItems rest

/-- String-list view of a loaded state value (see `pyStringItems`). -/
def pyStringList : PyJson → List String
  | PyJson.arr xs => pyStringItems xs
  | _ => []

/-- How one invocation of the script ends: a normal return from `main`
(process exit status 0) or a `sys.exit` with the given code. -/
inductive ScriptExit where
  | normal (r : RunResult)
  | exited (code : Nat)
  deriving DecidableEq, Repr

/-- The whole script around `main`: `load_locations` and `load_state` may
terminate the process with exit code 1; otherwise `main` runs and returns
normally, after which the process exits with status 0. -/
def script (cfg : Config) (locFile : Option (Option (List String)))
    (stateExists : Bool) (stateParsed : Option PyJson)
    (original_folders : List String) (images : String → List String)
    (existing : List String) (createOk : String → Bool) : ScriptExit :=
  match load_locations locFile with
  | Except.error c => ScriptExit.exited c
  | Except.ok locations =>
    match load_state stateExists stateParsed with
    | Except.error c => ScriptExit.exited c
    | Except.ok stateVal =>
      ScriptExit.normal
        (main cfg ⟨locations, pyStringList stateVal, original_folders, images,
          existing, createOk⟩)

/-- Opening brace character (numeric so that no brace appears in a literal). -/
def braceOpen : Char := Char.ofNat 123

/-- Closing brace character. -/
def braceClose : Char := Char.ofNat 125

/-- Opening square-bracket character. -/
def brackOpen : Char := Char.ofNat 91

/-- Closing square-bracket character. -/
def brackClose : Char := Char.ofNat 93

/-- Newline character. -/
def nl : Char := Char.ofNat 10

/-- Lowercase hexadecimal digit character of `n % 16` (as CPython's
`%04x` formatting produces): code 48-57 for the decimal digits, code
97-102 for the letter digits. -/
def hexDigit (n : Nat) : Char :=
  if n % 16 < 10 then Char.ofNat (48 + n % 16) else Char.ofNat (87 + n % 16)

/-- The four hex digits CPython's json encoder emits for a code unit. -/
def hex4 (n : Nat) : List Char :=
  [hexDigit (n / 4096), hexDigit (n / 256), hexDigit (n / 16), hexDigit n]

/-- A `\uXXXX` escape sequence. -/
def uEscape (n : Nat) : List Char := '\\' :: 'u' :: hex4 n

/-- Modelled from CPython's `json.dump` with `ensure_ascii` (the default
used by `save_state` at line 63 of src/main.py): how one character of a
string value is emitted inside double quotes.  Quote and backslash get a
backslash escape, the named control escapes are used for backspace, tab,
newline, form feed and carriage return, other control characters and all
non-ASCII characters become `\uXXXX` (a surrogate pair above the basic
plane), and everything else is emitted literally. -/
def escapeChar (c : Char) : List Char :=
  if c = '"' then ['\\', '"']
  else if c = '\\' then ['\\', '\\']
  else if c.toNat = 8 then ['\\', 'b']
  else if c.toNat = 9 then ['\\', 't']
  else if c.toNat = 10 then ['\\', 'n']
  else if c.toNat = 12 then ['\\', 'f']
  else if c.toNat = 13 then ['\\', 'r']
  else if c.toNat < 32 then uEscape c.toNat
  else if c.toNat ≤ 126 then [c]
  else if c.toNat < 65536 then uEscape c.toNat
  else uEscape (55296 + (c.toNat - 65536) / 1024) ++ uEscape (56320 + (c.toNat - 65536) % 1024)

/-- Escaped emission of a list of characters. -/
def escList : List Char → List Char
  | [] => []
  | c :: cs => escapeChar c ++ escList cs

/-- Escaped emission of a string value's content. -/
def jsonEscape (s : String) : List Char := escList s.data

/-- Four spaces, one `indent=4` level. -/
def spaces4 : List Char := [' ', ' ', ' ', ' ']

/-- Eight spaces, two `indent=4` levels. -/
def spaces8 : List Char := spaces4 ++ spaces4

/-- The characters from the key line of the state document:
four spaces, the quoted key `processed_locations`, a colon and a space. -/
def keyChunk : List Char := spaces4 ++ '"' :: "processed_locations".data ++ ['"', ':', ' ']

/-- One array item line: eight spaces and the quoted escaped string. -/
def quoteItem (x : String) : List Char := spaces8 ++ '"' :: (jsonEscape x ++ ['"'])

/-- The item lines of a non-empty array, joined by a comma and newline
(CPython's `indent=4` item separator). -/
def serializeItems : List String → List Char
  | [] => []
  | [x] => quoteItem x
  | x :: y :: ys => quoteItem x ++ ',' :: nl :: serializeItems (y :: ys)

/-- Characters before the items of a non-empty state document. -/
def docStart : List Char := braceOpen :: nl :: keyChunk ++ [brackOpen, nl]

/-- Characters after the items and before the final closing brace. -/
def docEnd : List Char := nl :: spaces4 ++ [brackClose, nl]

/-- Everything but the final closing brace, for an empty processed list
(CPython renders an empty array as `[]` on the key line). -/
def emptyBody : List Char := braceOpen :: nl :: keyChunk ++ [brackOpen, brackClose, nl]

/-- Everything but the final closing brace of the state document. -/
def serializeBody : List String → List Char
  | [] => emptyBody
  | x :: xs => docStart ++ serializeItems (x :: xs) ++ docEnd

/-- Modelled from CPython's `json.dump(obj, file, indent=4)` for the object
written by `save_state` at line 63 of src/main.py: the exact character
sequence of the state document for a given processed list. -/
def serializeState (L : List String) : List Char := serializeBody L ++ [braceClose]

/-- Model of `save_state` (lines 57-66 of src/main.py) at the byte level:
the file is opened with mode `w` (truncating any prior content) and this
character sequence is written to it front to back. -/
def save_state (processed_locations : List String) : List Char :=
  serializeState processed_locations

/-- A `save_state` call that fails after `k` characters leaves the file
holding the first `k` characters of the document: mode `w` truncates the
prior content first and writing proceeds sequentially. -/
def truncatedWrite (processed_locations : List String) (k : Nat) : List Char :=
  (save_state processed_locations).take k

/-- State of the structural JSON tokenizer: bracket nesting depth, whether
the scan position is inside a string literal, and whether the previous
character was an unconsumed backslash escape inside a string. -/
structure TokState where
  depth : Nat
  inString : Bool
  esc : Bool
  deriving DecidableEq, Repr

/-- One character of the structural tokenizer: a backslash inside a string
escapes the next character, a quote toggles string mode, and outside
strings braces and brackets adjust the nesting depth. -/
def stepTok : TokState → Char → TokState
  | ⟨d, inS, true⟩, _ => ⟨d, inS, false⟩
  | ⟨d, true, false⟩, c =>
    if c = '"' then ⟨d, false, false⟩
    else if c = '\\' then ⟨d, true, true⟩
    else ⟨d, true, false⟩
  | ⟨d, false, false⟩, c =>
    if c = '"' then ⟨d, true, false⟩
    else if c = braceOpen ∨ c = brackOpen then ⟨d + 1, false, false⟩
    else if c = braceClose ∨ c = brackClose then ⟨d - 1, false, false⟩
    else ⟨d, false, false⟩

/-- Running the structural tokenizer over a character list. -/
def runTok (s : TokState) (cs : List Char) : TokState := cs.foldl stepTok s

/-- A tokenizer state with open structure: inside a string, inside an
escape, or at positive nesting depth.  A document prefix ending in such a
state cannot be a complete JSON document. -/
def openTok (s : TokState) : Bool := s.inString || s.esc || decide (0 < s.depth)

/-- All states reached after each character of the list (from the given
start state) have open structure. -/
def allOpen : TokState → List Char → Bool
  | _, [] => true
  | s, c :: cs => openTok (stepTok s c) && allOpen (stepTok s c) cs

/-- Necessary structural condition for a character sequence to parse as a
JSON document: it is non-empty and the tokenizer ends outside any string
or escape with all braces and brackets balanced.  A file failing this
check is clearly invalid to any JSON reader (in particular `json.load`
in `load_state` raises on it). -/
def looksParseable (cs : List Char) : Bool :=
  decide (cs ≠ []) && decide (runTok ⟨0, false, false⟩ cs = ⟨0, false, false⟩)

/-- The world as the next invocation sees it after a run, with no external
changes in between: the state file holds whatever the run saved (or the
prior state when the run returned before saving), and the folders the run
created now exist in the target directory.  Catalog, source pool and
folder-creation behavior are unchanged. -/
def worldAfter (w : World) (r : RunResult) : World :=
  { w with state0 := r.savedState.getD w.state0, existing := w.existing ++ r.created }

/-- Two consecutive invocations of `main` with the same configuration and
no external changes between them. -/
def twoRuns (cfg : Config) (w : World) : RunResult × RunResult :=
  (main cfg w, main cfg (worldAfter w (main cfg w)))

/-- Number of batch positions below `B` whose cyclic assignment index
`i % S` selects source-pool slot `j`. -/
def cycleCount (B S j : Nat) : Nat :=
  ((List.range B).filter (fun i => decide (i % S = j))).length

/-! Structural lemmas about the tokenizer and the serialized state file. -/

theorem runTok_nil (s : TokState) : runTok s [] = s := rfl

theorem runTok_cons (s : TokState) (c : Char) (cs : List Char) :
    runTok s (c :: cs) = runTok (stepTok s c) cs := rfl

theorem runTok_append (s : TokState) (a b : List Char) :
    runTok s (a ++ b) = runTok (runTok s a) b := by
  simp [runTok, List.foldl_append]

theorem allOpen_cons (s : TokState) (c : Char) (cs : List Char) :
    allOpen s (c :: cs) = (openTok (stepTok s c) && allOpen (stepTok s c) cs) := rfl

theorem allOpen_append (s : TokState) (a b : List Char) :
    allOpen s (a ++ b) = (allOpen s a && allOpen (runTok s a) b) := by
  induction a generalizing s with
  | nil => simp [allOpen, runTok_nil]
  | cons c cs ih => simp [allOpen_cons, runTok_cons, ih, Bool.and_assoc]

theorem allOpen_take (s : TokState) (l : List Char) (h : allOpen s l = true) :
    ∀ k, k ≤ l.length → k = 0 ∨ openTok (runTok s (l.take k)) = true := by
  induction l generalizing s with
  | nil => intro k hk; left; simpa using hk
  | cons c cs ih =>
    intro k hk
    match k with
    | 0 => exact Or.inl rfl
    | k' + 1 =>
      right
      rw [allOpen_cons, Bool.and_eq_true] at h
      rw [List.take_succ_cons, runTok_cons]
      rcases ih (stepTok s c) h.2 k' (by simpa using hk) with h0 | hopen
      · subst h0; simpa [runTok_nil] using h.1
      · exact hopen

theorem stepTok_inString (d : Nat) (c : Char) (h1 : c ≠ '"') (h2 : c ≠ '\\') :
    stepTok ⟨d, true, false⟩ c = ⟨d, true, false⟩ := by
  simp [stepTok, h1, h2]

theorem hexDigit_ne (n : Nat) : hexDigit n ≠ '"' ∧ hexDigit n ≠ '\\' := by
  have h : n % 16 < 16 := Nat.mod_lt _ (by norm_num)
  have ball : ∀ k, k < 16 →
      ((if k < 10 then Char.ofNat (48 + k) else Char.ofNat (87 + k)) ≠ '"' ∧
       (if k < 10 then Char.ofNat (48 + k) else Char.ofNat (87 + k)) ≠ '\\') := by
    decide
  unfold hexDigit
  exact ball (n % 16) h

theorem runTok_uEscape (d n : Nat) :
    runTok ⟨d, true, false⟩ (uEscape n) = ⟨d, true, false⟩ ∧
    allOpen ⟨d, true, false⟩ (uEscape n) = true := by
  have hb : stepTok ⟨d, true, false⟩ '\\' = ⟨d, true, true⟩ := rfl
  have hu : stepTok ⟨d, true, true⟩ 'u' = ⟨d, true, false⟩ := rfl
  have hx : ∀ m, stepTok ⟨d, true, false⟩ (hexDigit m) = ⟨d, true, false⟩ :=
    fun m => stepTok_inString d _ (hexDigit_ne m).1 (hexDigit_ne m).2
  constructor
  · simp [uEscape, hex4, runTok, hb, hu, hx]
  · simp [uEscape, hex4, allOpen, allOpen_cons, hb, hu, hx, openTok]

theorem runTok_backslashPair (d : Nat) (x : Char) :
    runTok ⟨d, true, false⟩ ['\\', x] = ⟨d, true, false⟩ ∧
    allOpen ⟨d, true, false⟩ ['\\', x] = true := ⟨rfl, rfl⟩

theorem runTok_escapeChar (d : Nat) (c : Char) :
    runTok ⟨d, true, false⟩ (escapeChar c) = ⟨d, true, false⟩ ∧
    allOpen ⟨d, true, false⟩ (escapeChar c) = true := by
  by_cases h1 : c = '"'
  · simpa [escapeChar, h1] using runTok_backslashPair d '"'
  by_cases h2 : c = '\\'
  · simpa [escapeChar, h1, h2] using runTok_backslashPair d '\\'
  by_cases h3 : c.toNat = 8
  · simpa [escapeChar, h1, h2, h3] using runTok_backslashPair d 'b'
  by_cases h4 : c.toNat = 9
  · simpa [escapeChar, h1, h2, h3, h4] using runTok_backslashPair d 't'
  by_cases h5 : c.toNat = 10
  · simpa [escapeChar, h1, h2, h3, h4, h5] using runTok_backslashPair d 'n'
  by_cases h6 : c.toNat = 12
  · simpa [escapeChar, h1, h2, h3, h4, h5, h6] using runTok_backslashPair d 'f'
  by_cases h7 : c.toNat = 13
  · simpa [escapeChar, h1, h2, h3, h4, h5, h6, h7] using runTok_backslashPair d 'r'
  by_cases h8 : c.toNat < 32
  · simpa [escapeChar, h1, h2, h3, h4, h5, h6, h7, h8] using runTok_uEscape d c.toNat
  by_cases h9 : c.toNat ≤ 126
  · constructor
    · simp [escapeChar, h1, h2, h3, h4, h5, h6, h7, h8, h9, runTok,
        stepTok_inString d c h1 h2]
    · simp [escapeChar, h1, h2, h3, h4, h5, h6, h7, h8, h9, allOpen, allOpen_cons,
        stepTok_inString d c h1 h2, openTok]
  by_cases h10 : c.toNat < 65536
  · simpa [escapeChar, h1, h2, h3, h4, h5, h6, h7, h8, h9, h10] using runTok_uEscape d c.toNat
  · have ha := runTok_uEscape d (55296 + (c.toNat - 65536) / 1024)
    have hb := runTok_uEscape d (56320 + (c.toNat - 65536) % 1024)
    constructor
    · simp only [escapeChar, h1, h2, h3, h4, h5, h6, h7, h8, h9, h10, if_neg, if_false,
        ite_false]
      rw [runTok_append, ha.1, hb.1]
    · simp only [escapeChar, h1, h2, h3, h4, h5, h6, h7, h8, h9, h10, if_neg, if_false,
        ite_false]
      rw [allOpen_append, ha.2, ha.1, hb.2]
      rfl

theorem runTok_escList (d : Nat) (cs : List Char) :
    runTok ⟨d, true, false⟩ (escList cs) = ⟨d, true, false⟩ ∧
    allOpen ⟨d, true, false⟩ (escList cs) = true := by
  induction cs with
  | nil => exact ⟨rfl, rfl⟩
  | cons c cs ih =>
    have he := runTok_escapeChar d c
    constructor
    · simp only [escList]; rw [runTok_append, he.1, ih.1]
    · simp only [escList]; rw [allOpen_append, he.2, he.1, ih.2]; rfl

theorem runTok_quoteItem (x : String) :
    runTok ⟨2, false, false⟩ (quoteItem x) = ⟨2, false, false⟩ ∧
    allOpen ⟨2, false, false⟩ (quoteItem x) = true := by
  have he := runTok_escList 2 x.data
  have h8r : runTok ⟨2, false, false⟩ spaces8 = ⟨2, false, false⟩ := by decide
  have h8a : allOpen ⟨2, false, false⟩ spaces8 = true := by decide
  have hq : stepTok ⟨2, false, false⟩ '"' = ⟨2, true, false⟩ := rfl
  have hq2 : runTok ⟨2, true, false⟩ ['"'] = ⟨2, false, false⟩ := rfl
  have hq2a : allOpen ⟨2, true, false⟩ ['"'] = true := rfl
  constructor
  · rw [quoteItem, runTok_append, h8r, runTok_cons, hq]
    simp only [jsonEscape]
    rw [runTok_append, he.1, hq2]
  · rw [quoteItem, allOpen_append, h8a, h8r, allOpen_cons, hq]
    simp only [jsonEscape]
    rw [allOpen_append, he.2, he.1, hq2a]
    rfl

theorem runTok_serializeItems : (L : List String) →
    runTok ⟨2, false, false⟩ (serializeItems L) = ⟨2, false, false⟩ ∧
    allOpen ⟨2, false, false⟩ (serializeItems L) = true
  | [] => ⟨rfl, rfl⟩
  | [x] => by simpa only [serializeItems] using runTok_quoteItem x
  | x :: y :: ys => by
    have hq := runTok_quoteItem x
    have ih := runTok_serializeItems (y :: ys)
    have hc : stepTok ⟨2, false, false⟩ ',' = ⟨2, false, false⟩ := rfl
    have hn : stepTok ⟨2, false, false⟩ nl = ⟨2, false, false⟩ := rfl
    constructor
    · simp only [serializeItems]
      rw [runTok_append, hq.1, runTok_cons, hc, runTok_cons, hn, ih.1]
    · simp only [serializeItems]
      rw [allOpen_append, hq.2, hq.1, allOpen_cons, hc, allOpen_cons, hn, ih.2]
      rfl

theorem runTok_serializeBody : (L : List String) →
    runTok ⟨0, false, false⟩ (serializeBody L) = ⟨1, false, false⟩ ∧
    allOpen ⟨0, false, false⟩ (serializeBody L) = true
  | [] => ⟨by decide, by decide⟩
  | x :: xs => by
    have hs : runTok ⟨0, false, false⟩ docStart = ⟨2, false, false⟩ := by decide
    have hsa : allOpen ⟨0, false, false⟩ docStart = true := by decide
    have hi := runTok_serializeItems (x :: xs)
    have he : runTok ⟨2, false, false⟩ docEnd = ⟨1, false, false⟩ := by decide
    have hea : allOpen ⟨2, false, false⟩ docEnd = true := by decide
    constructor
    · rw [serializeBody, runTok_append, runTok_append, hs, hi.1, he]
    · rw [serializeBody, allOpen_append, allOpen_append, runTok_append, hsa, hs, hi.1,
        hi.2, hea]
      rfl

theorem runTok_serializeState (L : List String) :
    runTok ⟨0, false, false⟩ (serializeState L) = ⟨0, false, false⟩ := by
  rw [serializeState, runTok_append, (runTok_serializeBody L).1]
  rfl

/-! Lemmas about the batch loop and the shape of `main`'s results. -/

theorem processLocation_processed_cases (cfg : Config) (w : World) (st : LoopState)
    (i : Nat) (loc : String) :
    (processLocation cfg w st i loc).processed = st.processed ++ [loc] ∨
    (processLocation cfg w st i loc).processed = st.processed := by
  by_cases h1 : sanitize_folder_name loc ∈ st.existing
  · left; simp [processLocation, h1]
  by_cases h2 : w.createOk (sanitize_folder_name loc) = true
  · left; simp [processLocation, h1, h2]
  · right; simp [processLocation, h1, h2]

theorem processLocation_marks (cfg : Config) (w : World) (st : LoopState) (i : Nat)
    (loc : String) (hc : w.createOk (sanitize_folder_name loc) = true) :
    (processLocation cfg w st i loc).processed = st.processed ++ [loc] := by
  by_cases h1 : sanitize_folder_name loc ∈ st.existing
  · simp [processLocation, h1]
  · simp [processLocation, h1, hc]

theorem runLoop_processed_shape (cfg : Config) (w : World) :
    ∀ (entries : List (Nat × String)) (st : LoopState),
    ∃ added, (runLoop cfg w entries st).processed = st.processed ++ added ∧
      added.Sublist (entries.map Prod.snd)
  | [], st => ⟨[], by simp [runLoop]⟩
  | (i, loc) :: rest, st => by
    obtain ⟨added, hadd, hsub⟩ :=
      runLoop_processed_shape cfg w rest (processLocation cfg w st i loc)
    rcases processLocation_processed_cases cfg w st i loc with h | h
    · refine ⟨loc :: added, ?_, ?_⟩
      · rw [runLoop, hadd, h, List.append_assoc]
        rfl
      · simpa using List.Sublist.cons₂ loc hsub
    · refine ⟨added, ?_, ?_⟩
      · rw [runLoop, hadd, h]
      · simpa using List.Sublist.cons loc hsub

theorem runLoop_processed_mem (cfg : Config) (w : World) (entries : List (Nat × String))
    (st : LoopState) (l : String) (h : l ∈ st.processed) :
    l ∈ (runLoop cfg w entries st).processed := by
  obtain ⟨added, hadd, -⟩ := runLoop_processed_shape cfg w entries st
  rw [hadd]
  exact List.mem_append_left _ h

theorem runLoop_marks_all (cfg : Config) (w : World)
    (hc : w.createOk = fun _ => true) :
    ∀ (entries : List (Nat × String)) (st : LoopState) (l : String),
    l ∈ entries.map Prod.snd → l ∈ (runLoop cfg w entries st).processed
  | [], _, _, h => by simp at h
  | (i, loc) :: rest, st, l, h => by
    simp only [List.map_cons, List.mem_cons] at h
    rcases h with h | h
    · subst h
      rw [runLoop]
      apply runLoop_processed_mem
      rw [processLocation_marks cfg w st i _ (by rw [hc])]
      simp
    · rw [runLoop]
      exact runLoop_marks_all cfg w hc rest _ l h

theorem unprocessedOf_eq_nil (L P : List String) (h : ∀ a ∈ L, a ∈ P) :
    unprocessedOf L P = [] := by
  unfold unprocessedOf
  exact List.filter_eq_nil_iff.mpr fun a ha => by simp [h a ha]

theorem main_allProcessed (cfg : Config) (w : World)
    (h : unprocessedOf w.locations w.state0 = []) :
    main cfg w = ⟨Outcome.allProcessed, [], [], w.state0, none, false⟩ := by
  simp [main, h]

theorem main_noSource (cfg : Config) (w : World)
    (h1 : unprocessedOf w.locations w.state0 ≠ [])
    (h2 : w.original_folders = []) :
    main cfg w = ⟨Outcome.noSourceFolders, [], [], w.state0, none, false⟩ := by
  simp [main, h1, h2]

theorem main_completed (cfg : Config) (w : World)
    (h1 : unprocessedOf w.locations w.state0 ≠ [])
    (h2 : w.original_folders ≠ []) :
    main cfg w =
      ⟨Outcome.completed,
        (runLoop cfg w (batchEntries (currentBatchOf (unprocessedOf w.locations w.state0)
          cfg.batch_size)) ⟨w.state0, w.existing, [], []⟩).created,
        (runLoop cfg w (batchEntries (currentBatchOf (unprocessedOf w.locations w.state0)
          cfg.batch_size)) ⟨w.state0, w.existing, [], []⟩).copies,
        (runLoop cfg w (batchEntries (currentBatchOf (unprocessedOf w.locations w.state0)
          cfg.batch_size)) ⟨w.state0, w.existing, [], []⟩).processed,
        some ((runLoop cfg w (batchEntries (currentBatchOf (unprocessedOf w.locations w.state0)
          cfg.batch_size)) ⟨w.state0, w.existing, [], []⟩).processed),
        true⟩ := by
  simp [main, h1, h2]

/-! Counting lemmas for the cyclic source-folder assignment. -/

theorem cycleCount_succ (B S j : Nat) :
    cycleCount (B + 1) S j = cycleCount B S j + (if B % S = j then 1 else 0) := by
  unfold cycleCount
  rw [List.range_succ, List.filter_append, List.length_append]
  congr 1
  split_ifs with h <;> simp [List.filter, h]

theorem cycleCount_closed (S j : Nat) (hS : 0 < S) (hj : j < S) :
    ∀ B, cycleCount B S j = B / S + (if j < B % S then 1 else 0)
  | 0 => by simp [cycleCount]
  | B + 1 => by
    rw [cycleCount_succ, cycleCount_closed S j hS hj B]
    have hr : B % S < S := Nat.mod_lt _ hS
    have hdm := Nat.div_add_mod B S
    have e1 : B + 1 = S * (B / S) + (B % S + 1) := by omega
    rcases Nat.lt_or_ge (B % S + 1) S with hlt | hge
    · have hdiv : (B + 1) / S = B / S := by
        rw [e1, Nat.mul_add_div hS, Nat.div_eq_of_lt hlt, Nat.add_zero]
      have hmod : (B + 1) % S = B % S + 1 := by
        rw [e1, Nat.mul_add_mod, Nat.mod_eq_of_lt hlt]
      rw [hdiv, hmod]
      split_ifs <;> omega
    · have heq : B % S + 1 = S := by omega
      have e2 : B + 1 = S * (B / S + 1) := by rw [Nat.mul_succ]; omega
      have hdiv : (B + 1) / S = B / S + 1 := by
        rw [e2, Nat.mul_div_cancel_left _ hS]
      have hmod : (B + 1) % S = 0 := by rw [e2, Nat.mul_mod_right]
      rw [hdiv, hmod]
      split_ifs <;> omega

theorem cycleCount_floor_or_ceil (B S j : Nat) (hS : 0 < S) (hj : j < S) :
    cycleCount B S j = B / S ∨ cycleCount B S j = (B + S - 1) / S := by
  rw [cycleCount_closed S j hS hj B]
  by_cases h : j < B % S
  · right
    rw [if_pos h]
    have hdm := Nat.div_add_mod B S
    have e1 : B + S - 1 = S * (B / S + 1) + (B % S - 1) := by
      rw [Nat.mul_succ]
      omega
    have hr : B % S - 1 < S := by
      have : B % S < S := Nat.mod_lt _ hS
      omega
    rw [e1, Nat.mul_add_div hS, Nat.div_eq_of_lt hr]
  · left
    rw [if_neg h]
    omega

/-- Validation of the embedding against the worked scenario of the spec:
catalog [A, B, C], progress [A], batch size 2, source pool [S1] holding
three images, two images per folder — the run processes B and C with the
first two images of S1 and ends with everything processed. -/
theorem model_matches_spec_scenario :
    (main ⟨2, 2⟩ ⟨["A", "B", "C"], ["A"], ["S1"],
      fun _ => ["x.jpg", "y.png", "z.gif"], [], fun _ => true⟩).finalProcessed =
      ["A", "B", "C"] ∧
    (main ⟨2, 2⟩ ⟨["A", "B", "C"], ["A"], ["S1"],
      fun _ => ["x.jpg", "y.png", "z.gif"], [], fun _ => true⟩).copies =
      [("S1", "x.jpg", "B"), ("S1", "y.png", "B"),
       ("S1", "x.jpg", "C"), ("S1", "y.png", "C")] := by
  decide

/-! The claims. -/

/-- C1: for every catalog and every processed set, the planner's
unprocessed list consists of exactly the catalog entries not in the
processed set in catalog order (it is a sublist of the catalog and
membership is characterized exactly), and the current batch is the first
`batch_size` entries of that list (a prefix of it of length
`min batch_size (length unprocessed)`). -/
theorem batch_planner_correct (locations processed_locations : List String)
    (batch_size : Nat) :
    (unprocessedOf locations processed_locations).Sublist locations ∧
    (∀ loc, loc ∈ unprocessedOf locations processed_locations ↔
      loc ∈ locations ∧ loc ∉ processed_locations) ∧
    (currentBatchOf (unprocessedOf locations processed_locations) batch_size <+:
      unprocessedOf locations processed_locations) ∧
    (currentBatchOf (unprocessedOf locations processed_locations) batch_size).length =
      min batch_size (unprocessedOf locations processed_locations).length := by
  refine ⟨List.filter_sublist _, fun loc => ?_,
    ⟨(unprocessedOf locations processed_locations).drop batch_size,
      List.take_append_drop _ _⟩, List.length_take _ _⟩
  simp [unprocessedOf, List.mem_filter]

/-- C2: the batch loop enumerates the current batch with indices starting
at 0 (they restart each run); the source folder assigned at batch index
`i` is `original_folders[i % S]`; and over a batch of `B` positions, each
pool slot `j < S` is selected for `⌊B/S⌋` or `⌈B/S⌉` of the positions. -/
theorem cyclic_assignment_correct (original_folders : List String) (B : Nat)
    (hS : original_folders ≠ []) (_hB : original_folders.length < B) :
    (∀ current_batch : List String,
      (batchEntries current_batch).map Prod.fst = List.range current_batch.length) ∧
    (∀ i, assignedSource original_folders i =
      original_folders.getD (i % original_folders.length) "") ∧
    (∀ j, j < original_folders.length →
      cycleCount B original_folders.length j = B / original_folders.length ∨
      cycleCount B original_folders.length j =
        (B + original_folders.length - 1) / original_folders.length) := by
  refine ⟨fun current_batch => List.enum_map_fst _, fun i => rfl, fun j hj => ?_⟩
  exact cycleCount_floor_or_ceil B original_folders.length j
    (List.length_pos.mpr hS) hj

/-- Witness for the cyclic-assignment claim at a pool of two folders and a
batch of five positions. -/
theorem cyclic_assignment_witness :
    (["s1", "s2"] : List String) ≠ [] ∧ (["s1", "s2"] : List String).length < 5 ∧
    ((∀ current_batch : List String,
      (batchEntries current_batch).map Prod.fst = List.range current_batch.length) ∧
    (∀ i, assignedSource ["s1", "s2"] i =
      (["s1", "s2"] : List String).getD (i % (["s1", "s2"] : List String).length) "") ∧
    (∀ j, j < (["s1", "s2"] : List String).length →
      cycleCount 5 (["s1", "s2"] : List String).length j =
        5 / (["s1", "s2"] : List String).length ∨
      cycleCount 5 (["s1", "s2"] : List String).length j =
        (5 + (["s1", "s2"] : List String).length - 1) /
          (["s1", "s2"] : List String).length)) :=
  ⟨by decide, by decide, cyclic_assignment_correct ["s1", "s2"] 5 (by decide) (by decide)⟩

/-- C3: `save_state` writes the serialized document to a freshly truncated
file, so a failure after `k` characters leaves the file holding a strict
prefix of the document; every such prefix is clearly invalid — empty, or
structurally unbalanced, so no JSON reader can parse it — and never a
silently half-written, parseable-looking state; a completed write is well
formed. -/
theorem save_state_never_half_written (L : List String) (k : Nat)
    (hk : k < (save_state L).length) :
    looksParseable (truncatedWrite L k) = false ∧
    looksParseable (save_state L) = true := by
  constructor
  · by_cases h0 : k = 0
    · subst h0
      rfl
    · have hlen : (save_state L).length = (serializeBody L).length + 1 := by
        rw [save_state, serializeState, List.length_append, List.length_singleton]
      have hk2 : k ≤ (serializeBody L).length := by omega
      have htake : truncatedWrite L k = (serializeBody L).take k := by
        rw [truncatedWrite, save_state, serializeState,
          List.take_append_of_le_length hk2]
      rcases allOpen_take _ _ (runTok_serializeBody L).2 k hk2 with h | hopen
      · exact absurd h h0
      · rw [htake]
        have hne : runTok ⟨0, false, false⟩ ((serializeBody L).take k) ≠
            ⟨0, false, false⟩ := by
          intro he
          rw [he] at hopen
          simp [openTok] at hopen
        simp [looksParseable, hne]
  · have hne : serializeState L ≠ [] := by
      rw [serializeState]
      simp
    simp [looksParseable, save_state, runTok_serializeState L, hne]

/-- Witness for the half-written-state claim: the document for the
single-item list is 44 characters long, and its 5-character prefix is
rejected while the full document is accepted. -/
theorem save_state_never_half_written_witness :
    5 < (save_state ["a"]).length ∧
    (looksParseable (truncatedWrite ["a"] 5) = false ∧
     looksParseable (save_state ["a"]) = true) :=
  ⟨by decide, save_state_never_half_written ["a"] 5 (by decide)⟩

/-- C4 counterexample: with a readable one-location catalog, no prior
state and a source scan yielding zero folders, the process does not
terminate with a non-zero status: `main` prints and returns, so the script
ends normally (exit status 0) with nothing created, copied or saved. -/
theorem zero_source_folders_exits_normally :
    script ⟨20, 6⟩ (some (some ["A"])) false none [] (fun _ => []) [] (fun _ => true) =
      ScriptExit.normal ⟨Outcome.noSourceFolders, [], [], [], none, false⟩ := by
  rfl

/-- C4 amended: when the catalog and state load successfully, unprocessed
locations remain, and the source scan yields zero folders, the run halts
early — nothing is created, copied or saved, the target directory is not
made — but the process terminates normally with exit status zero, unlike
catalog or state failures which exit with status 1. -/
theorem zero_source_folders_clean_halt (cfg : Config)
    (locFile : Option (Option (List String))) (stateExists : Bool)
    (stateParsed : Option PyJson) (images : String → List String)
    (existing : List String) (createOk : String → Bool)
    (locations : List String) (stateVal : PyJson)
    (hloc : load_locations locFile = Except.ok locations)
    (hstate : load_state stateExists stateParsed = Except.ok stateVal)
    (hunproc : unprocessedOf locations (pyStringList stateVal) ≠ []) :
    script cfg locFile stateExists stateParsed [] images existing createOk =
      ScriptExit.normal
        ⟨Outcome.noSourceFolders, [], [], pyStringList stateVal, none, false⟩ := by
  simp only [script, hloc, hstate]
  congr 1
  exact main_noSource cfg _ hunproc rfl

/-- Witness for the amended zero-source-folders claim at a concrete
catalog, absent state file and empty source pool. -/
theorem zero_source_folders_clean_halt_witness :
    load_locations (some (some ["A", "B"])) = Except.ok ["A", "B"] ∧
    load_state false none = Except.ok (PyJson.arr []) ∧
    unprocessedOf ["A", "B"] (pyStringList (PyJson.arr [])) ≠ [] ∧
    script ⟨3, 2⟩ (some (some ["A", "B"])) false none [] (fun _ => ["i.jpg"]) []
        (fun _ => true) =
      ScriptExit.normal
        ⟨Outcome.noSourceFolders, [], [], pyStringList (PyJson.arr []), none, false⟩ :=
  ⟨rfl, rfl, by decide,
    zero_source_folders_clean_halt ⟨3, 2⟩ (some (some ["A", "B"])) false none
      (fun _ => ["i.jpg"]) [] (fun _ => true) ["A", "B"] (PyJson.arr [])
      rfl rfl (by decide)⟩

/-- C5 counterexample: catalog [A, B] with batch size 1 and identical
external inputs for both runs: the first run processes A, but the second
run is not a no-op — it performs copies and its processed list strictly
extends the first run's, because it picks up the next batch (B). -/
theorem second_run_not_idempotent :
    (twoRuns ⟨1, 1⟩ ⟨["A", "B"], [], ["S1"], fun _ => ["x.jpg"], [],
      fun _ => true⟩).2.copies ≠ [] ∧
    (twoRuns ⟨1, 1⟩ ⟨["A", "B"], [], ["S1"], fun _ => ["x.jpg"], [],
      fun _ => true⟩).2.finalProcessed ≠
    (twoRuns ⟨1, 1⟩ ⟨["A", "B"], [], ["S1"], fun _ => ["x.jpg"], [],
      fun _ => true⟩).1.finalProcessed := by
  decide

/-- C5 amended: when folder creation always succeeds and the unprocessed
remainder fits into one batch (so the first run exhausts the catalog — and
also in the degenerate no-source-folder runs, which change nothing), a
second run with the same inputs and no external changes performs no copies
and marks no new location: its final processed list is exactly the state
it loaded. -/
theorem second_run_idempotent_when_batch_covers (cfg : Config) (w : World)
    (hc : w.createOk = fun _ => true)
    (hsize : (unprocessedOf w.locations w.state0).length ≤ cfg.batch_size) :
    (twoRuns cfg w).2.copies = [] ∧
    (twoRuns cfg w).2.finalProcessed = (worldAfter w (twoRuns cfg w).1).state0 := by
  by_cases h1 : unprocessedOf w.locations w.state0 = []
  · have hm := main_allProcessed cfg w h1
    have h1' : unprocessedOf (worldAfter w (main cfg w)).locations
        (worldAfter w (main cfg w)).state0 = [] := by
      rw [hm]
      exact h1
    have hm2 := main_allProcessed cfg _ h1'
    constructor
    · show (main cfg (worldAfter w (main cfg w))).copies = []
      rw [hm2]
    · show (main cfg (worldAfter w (main cfg w))).finalProcessed =
        (worldAfter w (main cfg w)).state0
      rw [hm2]
  by_cases h2 : w.original_folders = []
  · have hm := main_noSource cfg w h1 h2
    have h1' : unprocessedOf (worldAfter w (main cfg w)).locations
        (worldAfter w (main cfg w)).state0 ≠ [] := by
      rw [hm]
      exact h1
    have hm2 := main_noSource cfg (worldAfter w (main cfg w)) h1' h2
    constructor
    · show (main cfg (worldAfter w (main cfg w))).copies = []
      rw [hm2]
    · show (main cfg (worldAfter w (main cfg w))).finalProcessed =
        (worldAfter w (main cfg w)).state0
      rw [hm2]
  · have hm := main_completed cfg w h1 h2
    have hbatch : currentBatchOf (unprocessedOf w.locations w.state0) cfg.batch_size =
        unprocessedOf w.locations w.state0 := List.take_of_length_le hsize
    have hall : ∀ loc ∈ w.locations,
        loc ∈ (runLoop cfg w (batchEntries (currentBatchOf
          (unprocessedOf w.locations w.state0) cfg.batch_size))
          ⟨w.state0, w.existing, [], []⟩).processed := by
      intro loc hloc
      by_cases hst : loc ∈ w.state0
      · exact runLoop_processed_mem _ _ _ _ _ hst
      · apply runLoop_marks_all cfg w hc
        rw [batchEntries, List.enum_map_snd, hbatch]
        simp [unprocessedOf, List.mem_filter, hloc, hst]
    have hst2 : (worldAfter w (main cfg w)).state0 =
        (runLoop cfg w (batchEntries (currentBatchOf
          (unprocessedOf w.locations w.state0) cfg.batch_size))
          ⟨w.state0, w.existing, [], []⟩).processed := by
      rw [worldAfter, hm]
      rfl
    have h1' : unprocessedOf (worldAfter w (main cfg w)).locations
        (worldAfter w (main cfg w)).state0 = [] := by
      rw [hst2]
      exact unprocessedOf_eq_nil _ _ fun a ha => hall a ha
    have hm2 := main_allProcessed cfg _ h1'
    constructor
    · show (main cfg (worldAfter w (main cfg w))).copies = []
      rw [hm2]
    · show (main cfg (worldAfter w (main cfg w))).finalProcessed =
        (worldAfter w (main cfg w)).state0
      rw [hm2]

/-- Witness for the amended idempotence claim: catalog [A, B], batch size
2, one source folder, creation always succeeding. -/
theorem second_run_idempotent_when_batch_covers_witness :
    (⟨["A", "B"], [], ["S1"], fun _ => ["x.jpg"], [], fun _ => true⟩ : World).createOk =
      (fun _ => true) ∧
    (unprocessedOf (⟨["A", "B"], [], ["S1"], fun _ => ["x.jpg"], [],
      fun _ => true⟩ : World).locations
      (⟨["A", "B"], [], ["S1"], fun _ => ["x.jpg"], [],
        fun _ => true⟩ : World).state0).length ≤ (⟨2, 1⟩ : Config).batch_size ∧
    ((twoRuns ⟨2, 1⟩ ⟨["A", "B"], [], ["S1"], fun _ => ["x.jpg"], [],
        fun _ => true⟩).2.copies = [] ∧
      (twoRuns ⟨2, 1⟩ ⟨["A", "B"], [], ["S1"], fun _ => ["x.jpg"], [],
        fun _ => true⟩).2.finalProcessed =
      (worldAfter ⟨["A", "B"], [], ["S1"], fun _ => ["x.jpg"], [], fun _ => true⟩
        (twoRuns ⟨2, 1⟩ ⟨["A", "B"], [], ["S1"], fun _ => ["x.jpg"], [],
          fun _ => true⟩).1).state0) :=
  ⟨rfl, by decide,
    second_run_idempotent_when_batch_covers ⟨2, 1⟩
      ⟨["A", "B"], [], ["S1"], fun _ => ["x.jpg"], [], fun _ => true⟩ rfl (by decide)⟩

/-- C6: when the loaded processed set contains every catalog location, the
run returns the clean AllProcessed outcome having created no folder,
issued no copy, written no state and not even created the target
directory. -/
theorem all_processed_no_mutation (cfg : Config) (w : World)
    (h : w.locations ⊆ w.state0) :
    main cfg w = ⟨Outcome.allProcessed, [], [], w.state0, none, false⟩ := by
  apply main_allProcessed
  exact unprocessedOf_eq_nil _ _ fun a ha => h ha

/-- Witness for the all-processed claim with a fully processed catalog. -/
theorem all_processed_no_mutation_witness :
    (⟨["A", "B"], ["B", "A"], ["S1"], fun _ => ["x.jpg"], [],
      fun _ => true⟩ : World).locations ⊆
      (⟨["A", "B"], ["B", "A"], ["S1"], fun _ => ["x.jpg"], [],
        fun _ => true⟩ : World).state0 ∧
    main ⟨20, 6⟩ ⟨["A", "B"], ["B", "A"], ["S1"], fun _ => ["x.jpg"], [],
      fun _ => true⟩ =
      ⟨Outcome.allProcessed, [], [], ["B", "A"], none, false⟩ :=
  ⟨by decide,
    all_processed_no_mutation ⟨20, 6⟩
      ⟨["A", "B"], ["B", "A"], ["S1"], fun _ => ["x.jpg"], [], fun _ => true⟩
      (by decide)⟩

/-- C7: when the destination folder for a planned location already exists,
the iteration marks the location processed and changes nothing else: no
folder content is touched, no copy is issued, no folder is created, and no
error is raised — the (total) loop simply continues with the next entry. -/
theorem existing_folder_skip_and_mark (cfg : Config) (w : World) (st : LoopState)
    (i : Nat) (location : String)
    (h : sanitize_folder_name location ∈ st.existing) :
    processLocation cfg w st i location =
      { st with processed := st.processed ++ [location] } := by
  simp [processLocation, h]

/-- Witness for the existing-folder skip at the concrete location D whose
destination folder already exists. -/
theorem existing_folder_skip_and_mark_witness :
    sanitize_folder_name "D" ∈ (⟨[], ["D"], [], []⟩ : LoopState).existing ∧
    processLocation ⟨20, 6⟩ ⟨["D"], [], ["S1"], fun _ => ["x.jpg"], ["D"],
        fun _ => true⟩ ⟨[], ["D"], [], []⟩ 0 "D" =
      { (⟨[], ["D"], [], []⟩ : LoopState) with processed := [] ++ ["D"] } :=
  ⟨by decide,
    existing_folder_skip_and_mark ⟨20, 6⟩
      ⟨["D"], [], ["S1"], fun _ => ["x.jpg"], ["D"], fun _ => true⟩
      ⟨[], ["D"], [], []⟩ 0 "D" (by decide)⟩

/-- C8: when the destination folder does not exist and creating it fails,
the iteration leaves the loop state completely unchanged — in particular
the location is not marked processed, so it stays eligible for a future
run — and the remaining batch entries are processed exactly as they would
have been from that state. -/
theorem create_failure_skip_without_mark (cfg : Config) (w : World) (st : LoopState)
    (i : Nat) (location : String)
    (h1 : sanitize_folder_name location ∉ st.existing)
    (h2 : w.createOk (sanitize_folder_name location) = false) :
    processLocation cfg w st i location = st ∧
    (∀ rest, runLoop cfg w rest (processLocation cfg w st i location) =
      runLoop cfg w rest st) := by
  have he : processLocation cfg w st i location = st := by
    simp [processLocation, h1, h2]
  exact ⟨he, fun rest => by rw [he]⟩

/-- Witness for the creation-failure skip at a concrete location whose
folder creation is refused. -/
theorem create_failure_skip_without_mark_witness :
    sanitize_folder_name "E" ∉ (⟨["A"], [], [], []⟩ : LoopState).existing ∧
    (⟨["E"], ["A"], ["S1"], fun _ => ["x.jpg"], [],
      fun _ => false⟩ : World).createOk (sanitize_folder_name "E") = false ∧
    (processLocation ⟨20, 6⟩ ⟨["E"], ["A"], ["S1"], fun _ => ["x.jpg"], [],
        fun _ => false⟩ ⟨["A"], [], [], []⟩ 0 "E" =
      (⟨["A"], [], [], []⟩ : LoopState) ∧
    (∀ rest, runLoop ⟨20, 6⟩ ⟨["E"], ["A"], ["S1"], fun _ => ["x.jpg"], [],
        fun _ => false⟩ rest
        (processLocation ⟨20, 6⟩ ⟨["E"], ["A"], ["S1"], fun _ => ["x.jpg"], [],
          fun _ => false⟩ ⟨["A"], [], [], []⟩ 0 "E") =
      runLoop ⟨20, 6⟩ ⟨["E"], ["A"], ["S1"], fun _ => ["x.jpg"], [],
        fun _ => false⟩ rest (⟨["A"], [], [], []⟩ : LoopState))) :=
  ⟨by decide, rfl,
    create_failure_skip_without_mark ⟨20, 6⟩
      ⟨["E"], ["A"], ["S1"], fun _ => ["x.jpg"], [], fun _ => false⟩
      ⟨["A"], [], [], []⟩ 0 "E" (by decide) rfl⟩

/-- C9: with unique catalog identifiers, a run preserves the invariants:
if the loaded processed list holds only catalog locations and has no
duplicates, then the run's final processed list still holds only catalog
locations and has no duplicates (each location is added at most once), and
whatever state is persisted is exactly that list. -/
theorem processed_invariants_preserved (cfg : Config) (w : World)
    (huniq : w.locations.Nodup) (hsub : w.state0 ⊆ w.locations)
    (hnodup : w.state0.Nodup) :
    ((main cfg w).finalProcessed ⊆ w.locations ∧
      (main cfg w).finalProcessed.Nodup) ∧
    ((main cfg w).savedState = none ∨
      (main cfg w).savedState = some (main cfg w).finalProcessed) := by
  by_cases h1 : unprocessedOf w.locations w.state0 = []
  · rw [main_allProcessed cfg w h1]
    exact ⟨⟨hsub, hnodup⟩, Or.inl rfl⟩
  by_cases h2 : w.original_folders = []
  · rw [main_noSource cfg w h1 h2]
    exact ⟨⟨hsub, hnodup⟩, Or.inl rfl⟩
  · rw [main_completed cfg w h1 h2]
    dsimp only
    obtain ⟨added, hadd, hsubl⟩ := runLoop_processed_shape cfg w
      (batchEntries (currentBatchOf (unprocessedOf w.locations w.state0)
        cfg.batch_size))
      ⟨w.state0, w.existing, [], []⟩
    rw [batchEntries, List.enum_map_snd] at hsubl
    have hbatchloc : (currentBatchOf (unprocessedOf w.locations w.state0)
        cfg.batch_size).Sublist w.locations :=
      (List.take_sublist _ _).trans (List.filter_sublist _)
    rw [hadd]
    dsimp only
    refine ⟨⟨?_, ?_⟩, Or.inr rfl⟩
    · intro x hx
      rcases List.mem_append.mp hx with hx | hx
      · exact hsub hx
      · exact hbatchloc.subset (hsubl.subset hx)
    · refine List.Nodup.append hnodup (hsubl.nodup (hbatchloc.nodup huniq)) ?_
      intro x hx hxa
      have hxu : x ∈ unprocessedOf w.locations w.state0 :=
        (List.take_sublist _ _).subset (hsubl.subset hxa)
      rw [unprocessedOf, List.mem_filter] at hxu
      simp only [decide_eq_true_eq] at hxu
      exact hxu.2 hx

/-- Witness for the invariant-preservation claim on a two-location catalog
with one prior processed location. -/
theorem processed_invariants_preserved_witness :
    (⟨["A", "B"], ["A"], ["S1"], fun _ => ["x.jpg"], [],
      fun _ => true⟩ : World).locations.Nodup ∧
    (⟨["A", "B"], ["A"], ["S1"], fun _ => ["x.jpg"], [],
      fun _ => true⟩ : World).state0 ⊆
      (⟨["A", "B"], ["A"], ["S1"], fun _ => ["x.jpg"], [],
        fun _ => true⟩ : World).locations ∧
    (⟨["A", "B"], ["A"], ["S1"], fun _ => ["x.jpg"], [],
      fun _ => true⟩ : World).state0.Nodup ∧
    (((main ⟨20, 6⟩ ⟨["A", "B"], ["A"], ["S1"], fun _ => ["x.jpg"], [],
        fun _ => true⟩).finalProcessed ⊆
      (⟨["A", "B"], ["A"], ["S1"], fun _ => ["x.jpg"], [],
        fun _ => true⟩ : World).locations ∧
      (main ⟨20, 6⟩ ⟨["A", "B"], ["A"], ["S1"], fun _ => ["x.jpg"], [],
        fun _ => true⟩).finalProcessed.Nodup) ∧
    ((main ⟨20, 6⟩ ⟨["A", "B"], ["A"], ["S1"], fun _ => ["x.jpg"], [],
        fun _ => true⟩).savedState = none ∨
      (main ⟨20, 6⟩ ⟨["A", "B"], ["A"], ["S1"], fun _ => ["x.jpg"], [],
        fun _ => true⟩).savedState =
        some (main ⟨20, 6⟩ ⟨["A", "B"], ["A"], ["S1"], fun _ => ["x.jpg"], [],
          fun _ => true⟩).finalProcessed)) :=
  ⟨by decide, by decide, by decide,
    processed_invariants_preserved ⟨20, 6⟩
      ⟨["A", "B"], ["A"], ["S1"], fun _ => ["x.jpg"], [], fun _ => true⟩
      (by decide) (by decide) (by decide)⟩

/-- C10 counterexample: a state file that exists and parses as valid JSON
— here an empty top-level array — but lacks the processed_locations field
does not yield the empty list: `state.get` raises `AttributeError` inside
the same `try` block and `load_state` calls `sys.exit(1)`. -/
theorem load_state_valid_json_can_exit :
    load_state true (some (PyJson.arr [])) = Except.error 1 := rfl

/-- C10 amended: a state file that exists and parses as a JSON object
lacking the processed_locations field yields the empty list, so the run
behaves as a first run rather than failing. -/
theorem load_state_missing_field_empty (fields : List (String × PyJson))
    (h : pyLookup fields "processed_locations" = none) :
    load_state true (some (PyJson.obj fields)) = Except.ok (PyJson.arr []) := by
  simp [load_state, h]

/-- Witness for the amended missing-field claim on an object with one
unrelated field. -/
theorem load_state_missing_field_empty_witness :
    pyLookup [("other", PyJson.null)] "processed_locations" = none ∧
    load_state true (some (PyJson.obj [("other", PyJson.null)])) =
      Except.ok (PyJson.arr []) :=
  ⟨rfl, load_state_missing_field_empty [("other", PyJson.null)] rfl⟩

end Reap
